import Mathlib

/-!
Verification development for the Dukadawa-OCR text-extraction core
(`app/ocr/processor.py`, `app/ocr/extractors.py`, `app/models.py`,
`app/config.py`).

The Python code is shallowly embedded: strings are `List Char` under the
hood (inputs in the theorems are ASCII, where Python's `str.lower`,
`str.upper` and the `re` module's IGNORECASE agree with `Char.toLower` /
`Char.toUpper`), every `re.search` call is realised as an executable
leftmost-match scanner with the exact backtracking behaviour of the
corresponding pattern, confidences are exact rationals, and the pydantic
model `ProductData` is a record whose constructor mirrors pydantic v2
semantics (extra keyword arguments are silently ignored; a value that is
not a string handed to a `str | None` field raises a validation error).
-/

/-! ## Character classes and scanning utilities -/

/-- Python `\s` on ASCII text: space, tab, newline, carriage return,
vertical tab, form feed. -/
def pyWs (c : Char) : Bool :=
  c = ' ' || c = '\t' || c = '\n' || c = '\r' || c.toNat = 11 || c.toNat = 12

/-- Python `\w` on ASCII text: letters, digits and underscore. -/
def wordChar (c : Char) : Bool :=
  c.isAlphanum || c = '_'

/-- Length of the maximal run of characters satisfying `p` at the head of
the list (the greedy match of `p*`). -/
def runLen (p : Char → Bool) : List Char → Nat
  | [] => 0
  | c :: rest => if p c then runLen p rest + 1 else 0

/-- `needle` occurs in `hay` starting at index `i`. -/
def substrAt (needle hay : List Char) (i : Nat) : Bool :=
  needle.isPrefixOf (hay.drop i)

/-- Index of the first occurrence of `needle` in `hay` (Python `str.find` /
the position at which the `in` operator succeeds). -/
def findSub (needle hay : List Char) : Option Nat :=
  (List.range (hay.length + 1)).find? (substrAt needle hay)

/-- Python's `needle in hay` substring test. -/
def containsSub (needle hay : List Char) : Bool :=
  (findSub needle hay).isSome

/-- Case-insensitive literal match at the head of `l`: `lit` is given in
lowercase; on success returns the remainder of `l`.  This is how a literal
inside an `re.IGNORECASE` pattern consumes input. -/
def ciPrefix (lit : List Char) (l : List Char) : Option (List Char) :=
  match lit, l with
  | [], rest => some rest
  | _ :: _, [] => none
  | c :: cs, d :: ds => if d.toLower = c then ciPrefix cs ds else none

/-- `re.search` driver: try the matcher at every start position from left
to right and return the first success (leftmost-match rule). -/
def searchAux {α : Type} (m : List Char → Option α) : List Char → Option α
  | [] => m []
  | c :: rest =>
    match m (c :: rest) with
    | some r => some r
    | none => searchAux m rest

/-- Lazy gap `.*?` followed by a token: starting from the current suffix,
try the token at the nearest position first; `.` does not match a newline
(no `re.DOTALL`), so the gap cannot cross a `'\n'`. -/
def lazyFind {α : Type} (tok : List Char → Option α) : List Char → Option α
  | [] => tok []
  | c :: rest =>
    match tok (c :: rest) with
    | some r => some r
    | none => if c = '\n' then none else lazyFind tok rest

/-- Greedy character-class capture `(p+)`: the maximal nonempty run of
characters satisfying `p`. -/
def classTok (p : Char → Bool) (l : List Char) : Option (List Char) :=
  let r := runLen p l
  if r ≥ 1 then some (l.take r) else none

/-! ## `TextExtractor` (app/ocr/extractors.py) -/

/-- `self.dosage_forms` (extractors.py line 7). -/
def dosage_forms : List String :=
  ["tablet", "capsule", "syrup", "injection", "cream", "ointment"]

/-- `self.countries` (extractors.py line 8). -/
def countries : List String :=
  ["USA", "UK", "India", "Germany", "Switzerland", "France"]

/-- The `for form in self.dosage_forms: if form in text_lower: return form`
loop of `extract_dosage_form`: first vocabulary entry (in list order) that
is a substring of the lowered text. -/
def findForm : List String → List Char → Option String
  | [], _ => none
  | f :: rest, tl =>
    if containsSub f.toList tl then some f else findForm rest tl

/-- `TextExtractor.extract_dosage_form` (extractors.py lines 18-23). -/
def extract_dosage_form (text : String) : Option String :=
  findForm dosage_forms (text.toList.map Char.toLower)

/-- The loop of `extract_manufacturer_country`: first country `c` (in list
order) such that `"MADE IN " + c` or `"MANUFACTURED IN " + c` occurs in the
uppercased text.  Note the needle uses the country name as written in the
vocabulary (mixed case for India, Germany, Switzerland, France), exactly as
the f-string in the source does. -/
def findCountry : List String → List Char → Option String
  | [], _ => none
  | c :: rest, tu =>
    if containsSub ("MADE IN " ++ c).toList tu
        || containsSub ("MANUFACTURED IN " ++ c).toList tu then some c
    else findCountry rest tu

/-- `TextExtractor.extract_manufacturer_country` (extractors.py lines 25-30). -/
def extract_manufacturer_country (text : String) : Option String :=
  findCountry countries (text.toList.map Char.toUpper)

/-- The glyph class `[®™]` of the brand-name pattern. -/
def isGlyph (c : Char) : Bool :=
  c = '®' || c = '™'

/-- Greedy tail of `([A-Z][A-Za-z]+(?:\s+[A-Z][A-Za-z]+)*)[®™]` after a
completed word: prefer extending with `\s+[A-Z][A-Za-z]+` (greedy `*`),
backtracking to the glyph check at the current position when the extension
cannot reach a glyph.  `l` is the suffix right after the last word and
`capLen` the number of characters captured so far; returns the final
capture length. -/
def brandMore : Nat → List Char → Nat → Option Nat
  | 0, _, _ => none
  | fuel + 1, l, capLen =>
    let w := runLen pyWs l
    let rest := l.drop w
    let ext : Option Nat :=
      if w ≥ 1 then
        match rest.head? with
        | some c =>
          if c.isUpper ∧ runLen Char.isAlpha rest ≥ 2 then
            brandMore fuel (rest.drop (runLen Char.isAlpha rest))
              (capLen + w + runLen Char.isAlpha rest)
          else none
        | none => none
      else none
    match ext with
    | some n => some n
    | none =>
      match l.head? with
      | some c => if isGlyph c then some capLen else none
      | none => none

/-- Attempt of `([A-Z][A-Za-z]+(?:\s+[A-Z][A-Za-z]+)*)[®™]` at the start
of `l`; returns the group-1 capture. -/
def brandAt (l : List Char) : Option (List Char) :=
  match l.head? with
  | some c =>
    if c.isUpper ∧ runLen Char.isAlpha l ≥ 2 then
      match brandMore l.length (l.drop (runLen Char.isAlpha l))
          (runLen Char.isAlpha l) with
      | some n => some (l.take n)
      | none => none
    else none
  | none => none

/-- `TextExtractor.extract_brand_name` (extractors.py lines 10-12):
`re.search(r'([A-Z][A-Za-z]+(?:\s+[A-Z][A-Za-z]+)*)[®™]', text)`. -/
def extract_brand_name (text : String) : Option String :=
  (searchAux brandAt text.toList).map List.asString

/-- Attempt of `\(([\w\s-]+)\)` at the start of `l`.  The class excludes
`)`, so the greedy `+` run is the maximal run and the next character must
close the parenthesis. -/
def genericAt (l : List Char) : Option (List Char) :=
  match l with
  | '(' :: rest =>
    let r := runLen (fun c => wordChar c || pyWs c || c = '-') rest
    if r ≥ 1 ∧ (rest.drop r).head? = some ')' then some (rest.take r)
    else none
  | _ => none

/-- `TextExtractor.extract_generic_name` (extractors.py lines 14-16). -/
def extract_generic_name (text : String) : Option String :=
  (searchAux genericAt text.toList).map List.asString

/-- The unit alternation `(?:mg|ml|g|mcg)` (case-sensitive, alternatives
tried left to right); returns the matched length. -/
def unitAt (l : List Char) : Option Nat :=
  if "mg".toList.isPrefixOf l then some 2
  else if "ml".toList.isPrefixOf l then some 2
  else if "g".toList.isPrefixOf l then some 1
  else if "mcg".toList.isPrefixOf l then some 3
  else none

/-- One dose `\d+(?:\.\d+)?\s*(?:mg|ml|g|mcg)` at the start of `l`;
returns the matched length.  The greedy digit/whitespace runs cannot be
shortened usefully by backtracking because no unit starts with a digit,
a dot or whitespace. -/
def doseAt (l : List Char) : Option Nat :=
  let d := runLen Char.isDigit l
  if d = 0 then none
  else
    let rest1 := l.drop d
    let fLen : Nat :=
      match rest1 with
      | '.' :: r2 => if runLen Char.isDigit r2 ≥ 1 then 1 + runLen Char.isDigit r2 else 0
      | _ => 0
    let rest2 := rest1.drop fLen
    let w := runLen pyWs rest2
    match unitAt (rest2.drop w) with
    | some u => some (d + fLen + w + u)
    | none => none

/-- Attempt of the full strength pattern
`(\d+(?:\.\d+)?\s*(?:mg|ml|g|mcg)/?(?:\d+(?:\.\d+)?\s*(?:mg|ml|g|mcg))?)`
at the start of `l`: a dose, an optional `/`, and an optional second dose. -/
def strengthAt (l : List Char) : Option (List Char) :=
  match doseAt l with
  | none => none
  | some n1 =>
    let rest := l.drop n1
    let slash : Nat := match rest.head? with | some '/' => 1 | _ => 0
    let n2 : Nat :=
      match doseAt (rest.drop slash) with
      | some m => m
      | none => 0
    some (l.take (n1 + slash + n2))

/-- `TextExtractor.extract_strength` (extractors.py lines 32-34). -/
def extract_strength (text : String) : Option String :=
  (searchAux strengthAt text.toList).map List.asString

/-- Tail `\s*([^.]+)` of the description/precaution patterns, with exact
backtracking: the greedy whitespace run is tried first; if the capture
`[^.]+` (any character but `.`, newline included) would be empty, the
whitespace run gives back one character, which the capture then takes. -/
def tailMatch (l : List Char) : Option (List Char) :=
  let w := runLen pyWs l
  let rest := l.drop w
  let r := runLen (fun c => c ≠ '.') rest
  if r ≥ 1 then some (rest.take r)
  else if w ≥ 1 then some ((l.drop (w - 1)).take 1)
  else none

/-- Tail `:?\s*([^.]+)` after a matched label: the optional colon is taken
greedily and given back if the rest cannot match. -/
def labelTail (l : List Char) : Option (List Char) :=
  let withColon : Option (List Char) :=
    match l with
    | ':' :: r => tailMatch r
    | _ => none
  match withColon with
  | some c => some c
  | none => tailMatch l

/-- Attempt of `description:?\s*([^.]+)` (IGNORECASE) at the start of `l`. -/
def descAt (l : List Char) : Option (List Char) :=
  match ciPrefix "description".toList l with
  | some rest => labelTail rest
  | none => none

/-- `TextExtractor.extract_description` (extractors.py lines 36-38). -/
def extract_description (text : String) : Option String :=
  (searchAux descAt text.toList).map List.asString

/-- Attempt of `(?:precaution|warning):?\s*([^.]+)` (IGNORECASE) at the
start of `l`; the alternatives are tried left to right. -/
def precAt (l : List Char) : Option (List Char) :=
  match ciPrefix "precaution".toList l with
  | some rest => labelTail rest
  | none =>
    match ciPrefix "warning".toList l with
    | some rest => labelTail rest
    | none => none

/-- `TextExtractor.extract_precaution` (extractors.py lines 40-42). -/
def extract_precaution (text : String) : Option String :=
  (searchAux precAt text.toList).map List.asString

/-! ## `OCRProcessor.patterns` (processor.py lines 18-23)

Each pattern is searched with `re.IGNORECASE`; `group(1)` is taken on
success (processor.py lines 71-73). -/

/-- The class `[A-Z0-9-]` under IGNORECASE: letters (either case), digits
and the dash. -/
def certClass (c : Char) : Bool :=
  c.isAlpha || c.isDigit || c = '-'

/-- Attempt of `certificate.*?([A-Z0-9-]+)` at the start of `l`. -/
def certAt (l : List Char) : Option (List Char) :=
  match ciPrefix "certificate".toList l with
  | some rest => lazyFind (classTok certClass) rest
  | none => none

/-- `re.search(patterns['certificate_number'], text, re.IGNORECASE)`. -/
def search_certificate (text : String) : Option String :=
  (searchAux certAt text.toList).map List.asString

/-- Attempt of `batch.*?([A-Z0-9-]+)` at the start of `l`. -/
def batchAt (l : List Char) : Option (List Char) :=
  match ciPrefix "batch".toList l with
  | some rest => lazyFind (classTok certClass) rest
  | none => none

/-- `re.search(patterns['batch_number'], text, re.IGNORECASE)`. -/
def search_batch (text : String) : Option String :=
  (searchAux batchAt text.toList).map List.asString

/-- The date-shaped token of the expiry pattern: two digits, a dash or
slash, two digits, a dash or slash, four digits. -/
def dateTok (l : List Char) : Option (List Char) :=
  match l with
  | d1 :: d2 :: s1 :: m1 :: m2 :: s2 :: y1 :: y2 :: y3 :: y4 :: _ =>
    if d1.isDigit && d2.isDigit && (s1 = '-' || s1 = '/')
        && m1.isDigit && m2.isDigit && (s2 = '-' || s2 = '/')
        && y1.isDigit && y2.isDigit && y3.isDigit && y4.isDigit then
      some [d1, d2, s1, m1, m2, s2, y1, y2, y3, y4]
    else none
  | _ => none

/-- Attempt of the expiry pattern (literal `exp`, lazy gap, date-shaped
token) at the start of `l`. -/
def expAt (l : List Char) : Option (List Char) :=
  match ciPrefix "exp".toList l with
  | some rest => lazyFind dateTok rest
  | none => none

/-- `re.search(patterns['expiry_date'], text, re.IGNORECASE)`. -/
def search_expiry (text : String) : Option String :=
  (searchAux expAt text.toList).map List.asString

/-- Attempt of `pack.*?(\d+)` at the start of `l`. -/
def packAt (l : List Char) : Option (List Char) :=
  match ciPrefix "pack".toList l with
  | some rest => lazyFind (classTok Char.isDigit) rest
  | none => none

/-- `re.search(patterns['pack_size'], text, re.IGNORECASE)`. -/
def search_pack (text : String) : Option String :=
  (searchAux packAt text.toList).map List.asString

/-! ## Date parsing (`datetime.strptime(raw, '%d/%m/%Y').date()`) -/

/-- A `datetime.date` value. -/
structure PyDate where
  day : Nat
  month : Nat
  year : Nat
deriving DecidableEq, Repr

/-- Gregorian leap-year rule used by `datetime`. -/
def isLeap (y : Nat) : Bool :=
  y % 4 = 0 && (y % 100 ≠ 0 || y % 400 = 0)

/-- Days in a month, as `datetime` validates them. -/
def daysInMonth (m y : Nat) : Nat :=
  if m = 2 then (if isLeap y then 29 else 28)
  else if m = 4 || m = 6 || m = 9 || m = 11 then 30
  else 31

/-- Numeric value of a decimal digit character. -/
def digitVal (c : Char) : Nat :=
  c.toNat - 48

/-- `datetime.strptime(s, '%d/%m/%Y')` on a ten-character capture of the
expiry pattern: both separators must be `/` (a `-` capture raises
`ValueError`), and the day/month/year must form a valid `datetime.date`
(month 1-12, day 1-days-in-month, year 1-9999). -/
def strptime_dmy (s : String) : Option PyDate :=
  match s.toList with
  | [d1, d2, s1, m1, m2, s2, y1, y2, y3, y4] =>
    if d1.isDigit && d2.isDigit && s1 = '/' && m1.isDigit && m2.isDigit
        && s2 = '/' && y1.isDigit && y2.isDigit && y3.isDigit && y4.isDigit then
      let d := 10 * digitVal d1 + digitVal d2
      let m := 10 * digitVal m1 + digitVal m2
      let y := 1000 * digitVal y1 + 100 * digitVal y2 + 10 * digitVal y3 + digitVal y4
      if 1 ≤ m && m ≤ 12 && 1 ≤ d && d ≤ daysInMonth m y && 1 ≤ y && y ≤ 9999 then
        some ⟨d, m, y⟩
      else none
    else none
  | _ => none

/-! ## `OCRProcessor.extract_product_info` (processor.py lines 66-101) -/

/-- A Python value that can appear in the `data` dict: a string capture,
the converted `datetime.date`, or an integer (for the `id` field of the
model, which this pipeline never supplies). -/
inductive PyValue where
  | str (s : String)
  | date (d : PyDate)
  | int (n : Int)
deriving DecidableEq, Repr

/-- The `expiry_date` entry of `data` after the conversion step
(processor.py lines 75-83): the raw capture, if any, is parsed with
`strptime` and replaced by the date; a `ValueError` sets the entry to
`None` instead. -/
def expiry_value (text : String) : Option PyValue :=
  match search_expiry text with
  | none => none
  | some raw =>
    match strptime_dmy raw with
    | some d => some (.date d)
    | none => none

/-- The `data` dict built by `extract_product_info` just before
`ProductData(**data)` (processor.py lines 68-99), in insertion order:
the four pattern fields, then the extractor fields and the placeholder
`None` entries added by `data.update`. -/
def extract_data (text : String) : List (String × Option PyValue) :=
  [("certificate_number", (search_certificate text).map .str),
   ("batch_number", (search_batch text).map .str),
   ("expiry_date", expiry_value text),
   ("pack_size", (search_pack text).map .str),
   ("brand_name", (extract_brand_name text).map .str),
   ("generic_name", (extract_generic_name text).map .str),
   ("dosage_form", (extract_dosage_form text).map .str),
   ("manufacturer_country", (extract_manufacturer_country text).map .str),
   ("strength", (extract_strength text).map .str),
   ("description", (extract_description text).map .str),
   ("precaution", (extract_precaution text).map .str),
   ("classification", none),
   ("manufacturer", none),
   ("self_administered", none),
   ("display_name", none),
   ("image_url", none)]

/-- The pydantic model `ProductData` (models.py lines 90-105), with its
declared fields in declaration order.  `id : int | None` and
`created_at : datetime | None` are never supplied by the pipeline and
default to `None`; all remaining fields are `str | None`. -/
structure ProductData where
  id : Option PyValue
  created_at : Option PyValue
  certificate_number : Option String
  brand_name : Option String
  generic_name : Option String
  dosage_form : Option String
  manufacturer : Option String
  strength : Option String
  batch_number : Option String
  expiry_date : Option String
  image_url : Option String
deriving DecidableEq, Repr

/-- Errors the embedded pipeline can surface: an untyped `cv2.error` from
the OpenCV binding, a pydantic `ValidationError`, and the spec's
`InvalidImageError` (part of the specified taxonomy; the source never
defines or raises it). -/
inductive PyErr where
  | cv2Error
  | validationError
  | invalidImageError
deriving DecidableEq, Repr

/-- Keyword-argument lookup: the value passed for field `k`, or `none`
when the key is absent (pydantic then uses the field's `None` default). -/
def getVal (data : List (String × Option PyValue)) (k : String) : Option PyValue :=
  match data.lookup k with
  | some v => v
  | none => none

/-- Validation of a `str | None` field under pydantic v2 lax mode: `None`
and `str` pass through; any other value (in particular a `datetime.date`)
raises a `ValidationError`. -/
def strFieldVal (v : Option PyValue) : Except PyErr (Option String) :=
  match v with
  | none => .ok none
  | some (.str s) => .ok (some s)
  | some _ => .error .validationError

/-- `ProductData(**data)`: pydantic v2 with the default configuration
ignores keyword arguments that do not correspond to a declared field
(so `pack_size`, `manufacturer_country`, `description`, `precaution`,
`classification`, `self_administered` and `display_name` are silently
dropped), and validates each declared `str | None` field. -/
def mkProductData (data : List (String × Option PyValue)) : Except PyErr ProductData := do
  let cert ← strFieldVal (getVal data "certificate_number")
  let brand ← strFieldVal (getVal data "brand_name")
  let gener ← strFieldVal (getVal data "generic_name")
  let dosage ← strFieldVal (getVal data "dosage_form")
  let manuf ← strFieldVal (getVal data "manufacturer")
  let stren ← strFieldVal (getVal data "strength")
  let bat ← strFieldVal (getVal data "batch_number")
  let expi ← strFieldVal (getVal data "expiry_date")
  let img ← strFieldVal (getVal data "image_url")
  pure { id := getVal data "id"
         created_at := getVal data "created_at"
         certificate_number := cert
         brand_name := brand
         generic_name := gener
         dosage_form := dosage
         manufacturer := manuf
         strength := stren
         batch_number := bat
         expiry_date := expi
         image_url := img }

/-- `OCRProcessor.extract_product_info` from the merged text onward:
build the `data` dict and construct the pydantic record. -/
def extract_product_info (text : String) : Except PyErr ProductData :=
  mkProductData (extract_data text)

/-- `model_dump` view of a `ProductData` record: its declared fields, and
only those, as a name-to-optional-value mapping. -/
def ProductData.toDict (d : ProductData) : List (String × Option PyValue) :=
  [("id", d.id),
   ("created_at", d.created_at),
   ("certificate_number", d.certificate_number.map .str),
   ("brand_name", d.brand_name.map .str),
   ("generic_name", d.generic_name.map .str),
   ("dosage_form", d.dosage_form.map .str),
   ("manufacturer", d.manufacturer.map .str),
   ("strength", d.strength.map .str),
   ("batch_number", d.batch_number.map .str),
   ("expiry_date", d.expiry_date.map .str),
   ("image_url", d.image_url.map .str)]

/-- The all-absent record: every declared field `None`. -/
def emptyProduct : ProductData :=
  ⟨none, none, none, none, none, none, none, none, none, none, none⟩

/-! ## `OCRProcessor.extract_text` (processor.py lines 41-64) -/

/-- `settings.MIN_CONFIDENCE` (config.py line 11). -/
def MIN_CONFIDENCE : ℚ := 1/2

/-- An EasyOCR result triple, bounding box omitted: `result[1]` is the
text, `result[2]` the confidence. -/
structure Fragment where
  text : String
  conf : ℚ
deriving DecidableEq, Repr

/-- The list comprehension
`[result[1] for result in easyocr_results if result[2] > settings.MIN_CONFIDENCE]`:
texts of the fragments whose confidence is strictly above the floor, in
detection order. -/
def survivors (floor : ℚ) (frags : List Fragment) : List String :=
  (frags.filter fun f => decide (floor < f.conf)).map Fragment.text

/-- `extract_text` after the two engine calls: `' '.join(...)` over the
surviving Engine A texts, then `f"{combined_text} {tesseract_text}"`. -/
def extract_text (floor : ℚ) (frags : List Fragment) (tesseract_text : String) : String :=
  String.intercalate " " (survivors floor frags) ++ " " ++ tesseract_text

/-! ## `OCRProcessor.preprocess_image` (processor.py lines 25-39) -/

/-- `settings.MAX_IMAGE_SIZE` (config.py line 14). -/
def MAX_IMAGE_SIZE : Nat := 4096

/-- A decoded raster's pixel dimensions (`image.shape[:2]`). -/
structure RawImage where
  h : Nat
  w : Nat
deriving DecidableEq, Repr

/-- OpenCV's `cvRound`: round half to even. -/
def cvRound (x : ℚ) : Int :=
  let f := ⌊x⌋
  let r := x - f
  if 1/2 < r then f + 1
  else if r < 1/2 then f
  else if f % 2 = 0 then f else f + 1

/-- `cv2.resize(image, None, fx=scale, fy=scale)`: the output size is
`(round(scale*w), round(scale*h))` (width = columns, height = rows). -/
def resize_dims (h w : Nat) (scale : ℚ) : Nat × Nat :=
  ((cvRound (scale * h)).toNat, (cvRound (scale * w)).toNat)

/-- The dimension part of `preprocess_image`: rescale only when the longer
side exceeds `MAX_IMAGE_SIZE`, with `scale = MAX_IMAGE_SIZE / max(h, w)`. -/
def preprocess_dims (h w : Nat) : Nat × Nat :=
  if MAX_IMAGE_SIZE < max h w then
    resize_dims h w ((MAX_IMAGE_SIZE : ℚ) / (max h w : ℚ))
  else (h, w)

/-- `preprocess_image`: the source performs no input validation of its
own; on an empty (zero-area) array the first OpenCV call (`cv2.resize` or
`cv2.cvtColor`) raises the untyped `cv2.error`.  Otherwise the grayscale,
denoise and threshold stages keep the (possibly rescaled) dimensions. -/
def preprocess_image (img : RawImage) : Except PyErr RawImage :=
  if img.h = 0 || img.w = 0 then .error .cv2Error
  else .ok ⟨(preprocess_dims img.h img.w).1, (preprocess_dims img.h img.w).2⟩

/-! ## Helper lemmas -/

/-- A successful `findForm` returns an element of the vocabulary. -/
theorem findForm_mem {forms : List String} {tl : List Char} {r : String}
    (h : findForm forms tl = some r) : r ∈ forms := by
  induction forms with
  | nil => rw [findForm] at h; exact Option.noConfusion h
  | cons f rest ih =>
    rw [findForm] at h
    split at h
    · injection h with h'
      exact h' ▸ List.mem_cons_self f rest
    · exact List.mem_cons_of_mem _ (ih h)

/-- A successful `findCountry` returns an element of the vocabulary. -/
theorem findCountry_mem {cs : List String} {tu : List Char} {r : String}
    (h : findCountry cs tu = some r) : r ∈ cs := by
  induction cs with
  | nil => rw [findCountry] at h; exact Option.noConfusion h
  | cons c rest ih =>
    rw [findCountry] at h
    split at h
    · injection h with h'
      exact h' ▸ List.mem_cons_self c rest
    · exact List.mem_cons_of_mem _ (ih h)

/-- `findForm` returns `some form` exactly when `form` occurs in the
vocabulary, its substring test succeeds, and the test fails for every
vocabulary entry listed before it. -/
theorem findForm_eq_some_iff (forms : List String) (tl : List Char) (form : String) :
    findForm forms tl = some form ↔
      ∃ pre post, forms = pre ++ form :: post ∧
        containsSub form.toList tl = true ∧
        ∀ f ∈ pre, containsSub f.toList tl = false := by
  induction forms with
  | nil =>
    constructor
    · intro h; rw [findForm] at h; exact Option.noConfusion h
    · rintro ⟨pre, post, hd, -, -⟩
      exact absurd hd (by cases pre <;> simp)
  | cons f rest ih =>
    rw [findForm]
    by_cases hc : containsSub f.toList tl = true
    · rw [if_pos hc]
      constructor
      · intro h
        injection h with h'
        subst h'
        exact ⟨[], rest, rfl, hc, by simp⟩
      · rintro ⟨pre, post, hd, hsub, hpre⟩
        cases pre with
        | nil =>
          injection hd with h1 h2
          rw [h1]
        | cons p pre' =>
          injection hd with h1 h2
          have hp := hpre p (List.mem_cons_self p pre')
          rw [← h1, hc] at hp
          exact Bool.noConfusion hp
    · rw [if_neg hc, ih]
      constructor
      · rintro ⟨pre, post, hd, hsub, hpre⟩
        refine ⟨f :: pre, post, by rw [hd]; rfl, hsub, ?_⟩
        intro g hg
        rcases List.mem_cons.mp hg with rfl | hg'
        · exact Bool.of_not_eq_true hc
        · exact hpre g hg'
      · rintro ⟨pre, post, hd, hsub, hpre⟩
        cases pre with
        | nil =>
          injection hd with h1 h2
          rw [← h1] at hsub
          exact absurd hsub hc
        | cons p pre' =>
          injection hd with h1 h2
          exact ⟨pre', post, h2, hsub, fun g hg => hpre g (List.mem_cons_of_mem _ hg)⟩

/-- `re.search` leftmost-match rule: a successful search happens at some
start position at which the matcher succeeds, with the matcher failing at
every earlier position. -/
theorem searchAux_eq_some {α : Type} {m : List Char → Option α} {l : List Char} {r : α}
    (h : searchAux m l = some r) :
    ∃ i, m (l.drop i) = some r ∧ ∀ j < i, m (l.drop j) = none := by
  induction l with
  | nil => exact ⟨0, h, by omega⟩
  | cons c rest ih =>
    rw [searchAux] at h
    cases hm : m (c :: rest) with
    | some r' =>
      rw [hm] at h
      obtain rfl : r' = r := by injection h
      exact ⟨0, hm, by omega⟩
    | none =>
      rw [hm] at h
      obtain ⟨i, hi, hmin⟩ := ih h
      refine ⟨i + 1, by simpa using hi, ?_⟩
      intro j hj
      match j with
      | 0 => exact hm
      | k + 1 => simpa using hmin k (by omega)

/-- A successful `brandMore` ends at a trademark glyph: the returned
capture length extends the accumulator, and the character right after the
captured extension is a glyph. -/
theorem brandMore_glyph {fuel : Nat} {s : List Char} {c n : Nat}
    (h : brandMore fuel s c = some n) :
    ∃ k g, n = c + k ∧ (s.drop k).head? = some g ∧ isGlyph g = true := by
  induction fuel generalizing s c n with
  | zero => rw [brandMore] at h; exact Option.noConfusion h
  | succ fuel ih =>
    simp only [brandMore] at h
    split at h
    next n' heq =>
      injection h with h'
      subst h'
      split at heq
      next hw =>
        split at heq
        next ch hch =>
          split at heq
          next hcond =>
            obtain ⟨k', g, hkeq, hg, hglyph⟩ := ih heq
            refine ⟨runLen pyWs s + runLen Char.isAlpha (s.drop (runLen pyWs s)) + k', g, by omega, ?_, hglyph⟩
            rw [List.drop_drop, List.drop_drop, ← Nat.add_assoc] at hg
            exact hg
          next hcond => exact Option.noConfusion heq
        next hch => exact Option.noConfusion heq
      next hw => exact Option.noConfusion heq
    next heq =>
      split at h
      next ch hch =>
        split at h
        next hg =>
          injection h with h'
          exact ⟨0, ch, by omega, by simpa using hch, hg⟩
        next hg => exact Option.noConfusion h
      next hch => exact Option.noConfusion h

/-- A successful `brandAt` capture is a nonempty prefix of the input that
starts with an uppercase letter, has length at least two, and is followed
immediately by a trademark glyph. -/
theorem brandAt_spec {l cap : List Char} (h : brandAt l = some cap) :
    ∃ g rest, l = cap ++ g :: rest ∧ isGlyph g = true ∧
      2 ≤ cap.length ∧ ∃ c cs, cap = c :: cs ∧ c.isUpper = true := by
  rw [brandAt] at h
  split at h
  next c hh =>
    split at h
    next hcond =>
      split at h
      next n hb =>
        injection h with h'
        subst h'
        obtain ⟨k, g, hkeq, hg, hglyph⟩ := brandMore_glyph hb
        rw [List.drop_drop, ← hkeq] at hg
        obtain ⟨rest, hrest⟩ : ∃ rest, l.drop n = g :: rest := by
          cases hdn : l.drop n with
          | nil => rw [hdn] at hg; exact Option.noConfusion hg
          | cons a as =>
            rw [hdn] at hg
            injection hg with h''
            exact ⟨as, by rw [h'']⟩
        have hlt : n < l.length := by
          by_contra hge
          have : l.drop n = [] := List.drop_eq_nil_of_le (by omega)
          rw [this] at hrest
          exact List.noConfusion hrest
        refine ⟨g, rest, ?_, hglyph, ?_, ?_⟩
        · rw [← hrest, List.take_append_drop]
        · rw [List.length_take]
          omega
        · obtain ⟨c0, cs0, rfl⟩ : ∃ c0 cs0, l = c0 :: cs0 := by
            cases l with
            | nil => exact Option.noConfusion hh
            | cons a as => exact ⟨a, as, rfl⟩
          injection hh with hc0
          obtain ⟨m, rfl⟩ : ∃ m, n = m + 1 := ⟨n - 1, by omega⟩
          refine ⟨c0, cs0.take m, List.take_succ_cons, ?_⟩
          rw [hc0]
          exact hcond.1
      next hb => exact Option.noConfusion h
    next hcond => exact Option.noConfusion h
  next hh => exact Option.noConfusion h

/-- The value passed for `certificate_number` in `ProductData(**data)`. -/
theorem getVal_cert (t : String) :
    getVal (extract_data t) "certificate_number" = (search_certificate t).map PyValue.str := rfl

/-- The value passed for `batch_number` in `ProductData(**data)`. -/
theorem getVal_batch (t : String) :
    getVal (extract_data t) "batch_number" = (search_batch t).map PyValue.str := rfl

/-- The value passed for `expiry_date` in `ProductData(**data)`. -/
theorem getVal_expiry (t : String) :
    getVal (extract_data t) "expiry_date" = expiry_value t := rfl

/-- The value passed for `pack_size` in `ProductData(**data)`. -/
theorem getVal_pack (t : String) :
    getVal (extract_data t) "pack_size" = (search_pack t).map PyValue.str := rfl

/-- The value passed for `brand_name` in `ProductData(**data)`. -/
theorem getVal_brand (t : String) :
    getVal (extract_data t) "brand_name" = (extract_brand_name t).map PyValue.str := rfl

/-- The value passed for `generic_name` in `ProductData(**data)`. -/
theorem getVal_generic (t : String) :
    getVal (extract_data t) "generic_name" = (extract_generic_name t).map PyValue.str := rfl

/-- The value passed for `dosage_form` in `ProductData(**data)`. -/
theorem getVal_dosage (t : String) :
    getVal (extract_data t) "dosage_form" = (extract_dosage_form t).map PyValue.str := rfl

/-- The value passed for `strength` in `ProductData(**data)`. -/
theorem getVal_strength (t : String) :
    getVal (extract_data t) "strength" = (extract_strength t).map PyValue.str := rfl

/-- `manufacturer` is passed as `None`. -/
theorem getVal_manufacturer (t : String) :
    getVal (extract_data t) "manufacturer" = none := rfl

/-- `image_url` is passed as `None`. -/
theorem getVal_image (t : String) :
    getVal (extract_data t) "image_url" = none := rfl

/-- `id` is never passed; pydantic falls back to the `None` default. -/
theorem getVal_id (t : String) :
    getVal (extract_data t) "id" = none := rfl

/-- `created_at` is never passed; pydantic falls back to the `None` default. -/
theorem getVal_created (t : String) :
    getVal (extract_data t) "created_at" = none := rfl

/-- A `str`-or-`None` kwarg passes validation unchanged. -/
theorem strFieldVal_mapStr (o : Option String) :
    strFieldVal (o.map PyValue.str) = Except.ok o := by
  cases o <;> rfl

/-- Binding a successful `Except` computation just continues. -/
theorem except_ok_bind {ε α β : Type} (a : α) (f : α → Except ε β) :
    (Except.ok a : Except ε α) >>= f = f a := rfl

/-- The `expiry_date` entry is never a raw string: it is either absent or
a parsed date. -/
theorem expiry_value_cases (t : String) :
    expiry_value t = none ∨ ∃ d, expiry_value t = some (PyValue.date d) := by
  cases hse : search_expiry t with
  | none => exact Or.inl (by rw [expiry_value, hse])
  | some raw =>
    cases hsp : strptime_dmy raw with
    | none => exact Or.inl (by simp only [expiry_value, hse, hsp])
    | some d => exact Or.inr ⟨d, by simp only [expiry_value, hse, hsp]⟩

/-- `extract_product_info` reduced to its only branching point: every
field except `expiry_date` validates unconditionally, so the call is the
validation of the expiry value followed by the record construction. -/
theorem extract_product_info_eq (t : String) :
    extract_product_info t =
      (strFieldVal (expiry_value t)).bind fun e => Except.ok
        ⟨none, none, search_certificate t, extract_brand_name t,
         extract_generic_name t, extract_dosage_form t, none,
         extract_strength t, search_batch t, e, none⟩ := by
  rw [extract_product_info, mkProductData]
  simp only [getVal_cert, getVal_brand, getVal_generic, getVal_dosage,
    getVal_manufacturer, getVal_strength, getVal_batch, getVal_expiry,
    getVal_image, getVal_id, getVal_created, strFieldVal_mapStr,
    except_ok_bind]
  cases hxv : strFieldVal (expiry_value t) with
  | error e => rfl
  | ok e => rfl

/-- Rounding a value that is already an integer changes nothing. -/
theorem cvRound_intCast (n : Int) : cvRound (n : ℚ) = n := by
  simp only [cvRound, Int.floor_intCast, sub_self]
  norm_num

/-- `cvRound` is off by at most one half. -/
theorem abs_cvRound_sub (x : ℚ) : |(cvRound x : ℚ) - x| ≤ 1/2 := by
  have h0 : (⌊x⌋ : ℚ) ≤ x := Int.floor_le x
  have h1 : x < ⌊x⌋ + 1 := Int.lt_floor_add_one x
  simp only [cvRound]
  split
  next hgt => rw [abs_le]; push_cast; constructor <;> linarith
  next hle =>
    split
    next hlt => rw [abs_le]; push_cast; constructor <;> linarith
    next hge =>
      have heq : x - ⌊x⌋ = 1/2 := by linarith [not_lt.mp hle, not_lt.mp hge]
      split
      next => rw [abs_le]; push_cast; constructor <;> linarith
      next => rw [abs_le]; push_cast; constructor <;> linarith

/-- `cvRound` of a nonnegative value is nonnegative. -/
theorem cvRound_nonneg {x : ℚ} (h : 0 ≤ x) : 0 ≤ cvRound x := by
  have hf : 0 ≤ ⌊x⌋ := Int.floor_nonneg.mpr h
  simp only [cvRound]
  split
  next => omega
  next =>
    split
    next => omega
    next => split <;> omega

/-- `cvRound` of a value at most an integer `k` is at most `k`. -/
theorem cvRound_le {x : ℚ} {k : Int} (hx : x ≤ (k : ℚ)) : cvRound x ≤ k := by
  have hf : ⌊x⌋ ≤ k := by
    have := Int.floor_le_floor (α := ℚ) hx
    rwa [Int.floor_intCast] at this
  have h0 : (⌊x⌋ : ℚ) ≤ x := Int.floor_le x
  simp only [cvRound]
  split
  next hgt =>
    have : (⌊x⌋ : ℚ) < (k : ℚ) := by linarith
    have : ⌊x⌋ < k := by exact_mod_cast this
    omega
  next =>
    split
    next => exact hf
    next hge =>
      have hhalf : (1:ℚ)/2 ≤ x - ⌊x⌋ := not_lt.mp hge
      have : (⌊x⌋ : ℚ) < (k : ℚ) := by linarith
      have : ⌊x⌋ < k := by exact_mod_cast this
      split <;> omega

/-- The configured maximum size as a rational. -/
theorem MAX_IMAGE_SIZE_q : ((MAX_IMAGE_SIZE : Nat) : ℚ) = 4096 := by
  rw [MAX_IMAGE_SIZE]
  norm_num

/-! ## Claims -/

/-- Claim C1, counterexample: the claim says an Engine A fragment is
retained exactly when its confidence is at least the floor, but the code
filters with a strict comparison (`result[2] > settings.MIN_CONFIDENCE`,
processor.py line 62): a fragment whose confidence equals the default
floor 0.5 satisfies the claim's retention condition yet is dropped, and
its text does not appear in the merged text. -/
theorem c1_floor_inclusive_counterexample :
    MIN_CONFIDENCE ≤ (1:ℚ)/2 ∧
    survivors MIN_CONFIDENCE [⟨"edge", 1/2⟩] = [] ∧
    extract_text MIN_CONFIDENCE [⟨"edge", 1/2⟩] "tess" = " tess" ∧
    containsSub "edge".toList " tess".toList = false := by
  have hd : decide (MIN_CONFIDENCE < ((1:ℚ)/2)) = false := by
    rw [decide_eq_false_iff_not, MIN_CONFIDENCE]
    norm_num
  have hsv : survivors MIN_CONFIDENCE [⟨"edge", 1/2⟩] = [] := by
    rw [survivors, List.filter_cons, hd]
    rfl
  refine ⟨by rw [MIN_CONFIDENCE], hsv, ?_, by decide⟩
  rw [extract_text, hsv]
  rfl

/-- Claim C1 (amended): for every list of Engine A fragments and every
confidence floor, a fragment survives the filter if and only if its
confidence is strictly greater than the floor; in particular with
confidences 0.9 and 0.3 and the default floor 0.5, exactly the 0.9
fragment's text is retained, and Engine B output is appended
unconditionally. -/
theorem c1_confidence_filter_strict :
    (∀ (floor : ℚ) (frags : List Fragment) (f : Fragment),
      f ∈ frags.filter (fun g => decide (floor < g.conf)) ↔ f ∈ frags ∧ floor < f.conf) ∧
    survivors MIN_CONFIDENCE [⟨"A", 9/10⟩, ⟨"B", 3/10⟩] = ["A"] ∧
    extract_text MIN_CONFIDENCE [⟨"A", 9/10⟩, ⟨"B", 3/10⟩] "" = "A " := by
  have h9 : decide (MIN_CONFIDENCE < ((9:ℚ)/10)) = true := by
    rw [decide_eq_true_eq, MIN_CONFIDENCE]
    norm_num
  have h3 : decide (MIN_CONFIDENCE < ((3:ℚ)/10)) = false := by
    rw [decide_eq_false_iff_not, MIN_CONFIDENCE]
    norm_num
  have hsv : survivors MIN_CONFIDENCE [⟨"A", 9/10⟩, ⟨"B", 3/10⟩] = ["A"] := by
    rw [survivors, List.filter_cons, List.filter_cons, h9, h3]
    rfl
  refine ⟨?_, hsv, ?_⟩
  · intro floor frags f
    rw [List.mem_filter, decide_eq_true_eq]
  · rw [extract_text, hsv]
    rfl

/-- Claim C1, witness: the 0.9-confidence fragment is in the filtered list
at the default floor. -/
theorem c1_confidence_filter_strict_witness :
    (⟨"A", 9/10⟩ : Fragment) ∈
      ([⟨"A", 9/10⟩, ⟨"B", 3/10⟩] : List Fragment).filter
        (fun g => decide (MIN_CONFIDENCE < g.conf)) :=
  (c1_confidence_filter_strict.1 MIN_CONFIDENCE [⟨"A", 9/10⟩, ⟨"B", 3/10⟩] ⟨"A", 9/10⟩).mpr
    ⟨List.mem_cons_self _ _, by rw [MIN_CONFIDENCE]; norm_num⟩

/-- Claim C2, counterexample: the claim says no extracted field is dropped
from the final record, but on the text `"pack 12"` the pattern scan stores
`pack_size = "12"` in the `data` dict while the returned `ProductData`
record has no `pack_size` field at all — pydantic silently ignores the
keyword argument because models.py lines 90-105 do not declare it. -/
theorem c2_pack_size_dropped_counterexample :
    getVal (extract_data "pack 12") "pack_size" = some (PyValue.str "12") ∧
    extract_product_info "pack 12" = Except.ok emptyProduct ∧
    (ProductData.toDict emptyProduct).lookup "pack_size" = none :=
  ⟨rfl, rfl, rfl⟩

/-- Claim C2 (amended): the record returned by `extract_product_info`
retains exactly the fields declared on `ProductData` — certificate_number,
brand_name, generic_name, dosage_form, manufacturer, strength,
batch_number, expiry_date, image_url, plus the never-supplied id and
created_at — each carrying the corresponding extractor output; the
extracted pack_size, manufacturer_country, description, precaution and the
placeholders classification, self_administered, display_name are silently
dropped, and expiry_date is always absent in a successfully returned
record. -/
theorem c2_declared_fields_retained (t : String) (d : ProductData)
    (h : extract_product_info t = Except.ok d) :
    d.certificate_number = search_certificate t ∧
    d.brand_name = extract_brand_name t ∧
    d.generic_name = extract_generic_name t ∧
    d.dosage_form = extract_dosage_form t ∧
    d.strength = extract_strength t ∧
    d.batch_number = search_batch t ∧
    d.manufacturer = none ∧ d.image_url = none ∧
    d.expiry_date = none ∧ d.id = none ∧ d.created_at = none ∧
    d.toDict.map Prod.fst =
      ["id", "created_at", "certificate_number", "brand_name", "generic_name",
       "dosage_form", "manufacturer", "strength", "batch_number", "expiry_date",
       "image_url"] := by
  rw [extract_product_info_eq] at h
  rcases expiry_value_cases t with hev | ⟨dd, hev⟩
  · rw [hev] at h
    injection h with h'
    subst h'
    exact ⟨rfl, rfl, rfl, rfl, rfl, rfl, rfl, rfl, rfl, rfl, rfl, rfl⟩
  · rw [hev] at h
    exact Except.noConfusion h

/-- Claim C2, witness: the field-retention theorem instantiated on the
text `"pack 12"`, whose successful record is the all-absent one. -/
theorem c2_declared_fields_retained_witness :
    emptyProduct.certificate_number = search_certificate "pack 12" ∧
    emptyProduct.brand_name = extract_brand_name "pack 12" ∧
    emptyProduct.generic_name = extract_generic_name "pack 12" ∧
    emptyProduct.dosage_form = extract_dosage_form "pack 12" ∧
    emptyProduct.strength = extract_strength "pack 12" ∧
    emptyProduct.batch_number = search_batch "pack 12" ∧
    emptyProduct.manufacturer = none ∧ emptyProduct.image_url = none ∧
    emptyProduct.expiry_date = none ∧ emptyProduct.id = none ∧
    emptyProduct.created_at = none ∧
    emptyProduct.toDict.map Prod.fst =
      ["id", "created_at", "certificate_number", "brand_name", "generic_name",
       "dosage_form", "manufacturer", "strength", "batch_number", "expiry_date",
       "image_url"] :=
  c2_declared_fields_retained "pack 12" emptyProduct rfl

/-- Claim C3: normalization leaves the pixel dimensions of an image whose
longer side is at most `MAX_IMAGE_SIZE` unchanged; when the longer side
exceeds it, the normalized longer side equals `MAX_IMAGE_SIZE` exactly and
each side is within one pixel of the exact uniform rescaling, so the
aspect ratio is preserved within one pixel. -/
theorem c3_normalize_dims (h w : Nat) :
    (max h w ≤ MAX_IMAGE_SIZE → preprocess_dims h w = (h, w)) ∧
    (MAX_IMAGE_SIZE < max h w →
      max (preprocess_dims h w).1 (preprocess_dims h w).2 = MAX_IMAGE_SIZE ∧
      |((preprocess_dims h w).1 : ℚ) - (h : ℚ) * (MAX_IMAGE_SIZE : ℚ) / (max h w : ℚ)| ≤ 1 ∧
      |((preprocess_dims h w).2 : ℚ) - (w : ℚ) * (MAX_IMAGE_SIZE : ℚ) / (max h w : ℚ)| ≤ 1) := by
  constructor
  · intro hle
    rw [preprocess_dims, if_neg (by omega)]
  · intro hgt
    have hL0 : (0 : ℚ) < (max h w : ℚ) := by
      exact_mod_cast (by omega : (0 : Nat) < max h w)
    have hLne : (max h w : ℚ) ≠ 0 := ne_of_gt hL0
    rw [preprocess_dims, if_pos hgt, resize_dims]
    set s : ℚ := (MAX_IMAGE_SIZE : ℚ) / (max h w : ℚ) with hs
    have hs_nonneg : 0 ≤ s := by
      rw [hs, MAX_IMAGE_SIZE_q]
      positivity
    have hval : ∀ a : Nat, s * (a : ℚ) = (a : ℚ) * (MAX_IMAGE_SIZE : ℚ) / (max h w : ℚ) := by
      intro a
      rw [hs]
      ring
    have hlong : s * ((max h w : Nat) : ℚ) = ((MAX_IMAGE_SIZE : Nat) : ℚ) := by
      rw [hs]
      field_simp
    have hside_le : ∀ a : Nat, a ≤ max h w → cvRound (s * (a : ℚ)) ≤ (MAX_IMAGE_SIZE : Int) := by
      intro a ha
      apply cvRound_le
      have : s * (a : ℚ) ≤ s * ((max h w : Nat) : ℚ) := by
        apply mul_le_mul_of_nonneg_left _ hs_nonneg
        exact_mod_cast ha
      rw [hlong] at this
      exact_mod_cast this
    have hside_nonneg : ∀ a : Nat, 0 ≤ cvRound (s * (a : ℚ)) := by
      intro a
      apply cvRound_nonneg
      positivity
    have hlong_round : cvRound (s * ((max h w : Nat) : ℚ)) = (MAX_IMAGE_SIZE : Int) := by
      rw [hlong]
      exact_mod_cast cvRound_intCast (MAX_IMAGE_SIZE : Int)
    have haspect : ∀ a : Nat,
        |(((cvRound (s * (a : ℚ))).toNat : ℚ)) - (a : ℚ) * (MAX_IMAGE_SIZE : ℚ) / (max h w : ℚ)| ≤ 1 := by
      intro a
      have hc : (((cvRound (s * (a : ℚ))).toNat : Nat) : ℚ) = ((cvRound (s * (a : ℚ)) : Int) : ℚ) := by
        exact_mod_cast congrArg (fun z : Int => (z : ℚ)) (Int.toNat_of_nonneg (hside_nonneg a))
      rw [hc, ← hval a]
      calc |((cvRound (s * (a : ℚ)) : Int) : ℚ) - s * (a : ℚ)|
          ≤ 1/2 := abs_cvRound_sub _
        _ ≤ 1 := by norm_num
    refine ⟨?_, haspect h, haspect w⟩
    have hA_le : (cvRound (s * (h : ℚ))).toNat ≤ MAX_IMAGE_SIZE := by
      have h1 := Int.toNat_le_toNat (hside_le h (le_max_left h w))
      rwa [Int.toNat_natCast] at h1
    have hB_le : (cvRound (s * (w : ℚ))).toNat ≤ MAX_IMAGE_SIZE := by
      have h1 := Int.toNat_le_toNat (hside_le w (le_max_right h w))
      rwa [Int.toNat_natCast] at h1
    rcases le_total h w with hc | hc
    · have hm : max h w = w := max_eq_right hc
      have hB : (cvRound (s * (w : ℚ))).toNat = MAX_IMAGE_SIZE := by
        rw [hm] at hlong_round
        rw [hlong_round, Int.toNat_natCast]
      omega
    · have hm : max h w = h := max_eq_left hc
      have hA : (cvRound (s * (h : ℚ))).toNat = MAX_IMAGE_SIZE := by
        rw [hm] at hlong_round
        rw [hlong_round, Int.toNat_natCast]
      omega

/-- Claim C3, witness: a 100 by 50 image passes through unchanged, and an
8192 by 4096 image comes out with its longer side exactly at the
configured maximum. -/
theorem c3_normalize_dims_witness :
    preprocess_dims 100 50 = (100, 50) ∧
    max (preprocess_dims 8192 4096).1 (preprocess_dims 8192 4096).2 = MAX_IMAGE_SIZE :=
  ⟨(c3_normalize_dims 100 50).1 (by decide), ((c3_normalize_dims 8192 4096).2 (by decide)).1⟩

/-- Claim C4, counterexample: the claim says the vocabulary form occurring
earlier in the text wins, but on `"capsule tablet"` the code returns
`"tablet"` even though `"capsule"` occurs at index 0 and `"tablet"` only
at index 8 — the loop iterates over the vocabulary, not over the text. -/
theorem c4_text_order_counterexample :
    extract_dosage_form "capsule tablet" = some "tablet" ∧
    findSub "capsule".toList "capsule tablet".toList = some 0 ∧
    findSub "tablet".toList "capsule tablet".toList = some 8 ∧
    "tablet" ≠ "capsule" :=
  ⟨rfl, rfl, rfl, by decide⟩

/-- Claim C4 (amended): the dosage-form extractor returns `some form`
exactly when `form` is a vocabulary entry that occurs case-insensitively
in the text and every vocabulary entry listed before it (in the fixed
vocabulary order tablet, capsule, syrup, injection, cream, ointment) does
not occur; absence of any match yields `none`, never an error.  In
particular `extract_dosage_form "100 tablets of paracetamol"` is
`some "tablet"`. -/
theorem c4_vocab_order_first_match :
    (∀ t form, extract_dosage_form t = some form ↔
      ∃ pre post, dosage_forms = pre ++ form :: post ∧
        containsSub form.toList (t.toList.map Char.toLower) = true ∧
        ∀ f ∈ pre, containsSub f.toList (t.toList.map Char.toLower) = false) ∧
    extract_dosage_form "100 tablets of paracetamol" = some "tablet" :=
  ⟨fun t form => findForm_eq_some_iff dosage_forms (t.toList.map Char.toLower) form, rfl⟩

/-- Claim C4, witness: the characterization applied at `"SYRUP bottle"`,
where the two vocabulary entries before syrup do not occur. -/
theorem c4_vocab_order_first_match_witness :
    extract_dosage_form "SYRUP bottle" = some "syrup" :=
  (c4_vocab_order_first_match.1 "SYRUP bottle" "syrup").mpr
    ⟨["tablet", "capsule"], ["injection", "cream", "ointment"], rfl, rfl, by decide⟩

/-- Claim C5 (code bug): the raw expiry capture on `"EXP 12/08/2026"` is
`"12/08/2026"` and `strptime` parses it to the date 2026-08-12 as the
claim says — but the pipeline then raises a pydantic validation error
instead of returning the record, because `ProductData.expiry_date` is
declared `str | None` (models.py line 100) and receives a `datetime.date`.
The parse-failure half of the claim holds: `"EXP ABCDE"` has no
date-shaped token, so the field is absent and the call returns the
all-absent record without error. -/
theorem c5_expiry_date_validation_crash :
    search_expiry "EXP 12/08/2026" = some "12/08/2026" ∧
    strptime_dmy "12/08/2026" = some ⟨12, 8, 2026⟩ ∧
    extract_product_info "EXP 12/08/2026" = Except.error PyErr.validationError ∧
    extract_product_info "EXP ABCDE" = Except.ok emptyProduct :=
  ⟨rfl, rfl, rfl, rfl⟩

/-- Claim C6, counterexample: the claim says a zero-area image fails with
the typed `InvalidImageError`, but the normalizer performs no validation
of its own and the failure surfaces as the untyped OpenCV error instead —
`InvalidImageError` is never defined or raised anywhere in the source. -/
theorem c6_invalid_image_counterexample :
    preprocess_image ⟨0, 0⟩ = Except.error PyErr.cv2Error ∧
    PyErr.cv2Error ≠ PyErr.invalidImageError :=
  ⟨rfl, by decide⟩

/-- Claim C6 (amended): the normalizer never raises a typed
`InvalidImageError`; a zero-area input propagates the untyped lower-level
`cv2.error` from the first OpenCV call, and any non-degenerate input
succeeds with the rescaled dimensions. -/
theorem c6_untyped_error_only (img : RawImage) :
    preprocess_image img ≠ Except.error PyErr.invalidImageError ∧
    (img.h = 0 ∨ img.w = 0 → preprocess_image img = Except.error PyErr.cv2Error) ∧
    (img.h ≠ 0 → img.w ≠ 0 → preprocess_image img =
      Except.ok ⟨(preprocess_dims img.h img.w).1, (preprocess_dims img.h img.w).2⟩) := by
  rw [preprocess_image]
  by_cases hc : (img.h = 0 || img.w = 0) = true
  · rw [if_pos hc]
    simp only [Bool.or_eq_true, decide_eq_true_eq] at hc
    refine ⟨?_, fun _ => rfl, ?_⟩
    · intro hcontra
      injection hcontra with hpe
      exact PyErr.noConfusion hpe
    · intro hh hw
      rcases hc with h0 | h0
      · exact absurd h0 hh
      · exact absurd h0 hw
  · rw [if_neg hc]
    simp only [Bool.or_eq_true, decide_eq_true_eq, not_or] at hc
    refine ⟨fun hcontra => Except.noConfusion hcontra, ?_, fun _ _ => rfl⟩
    intro hor
    rcases hor with h0 | h0
    · exact absurd h0 hc.1
    · exact absurd h0 hc.2

/-- Claim C6, witness: a degenerate 0-by-5 image raises the untyped OpenCV
error and a 10-by-20 image passes through. -/
theorem c6_untyped_error_only_witness :
    preprocess_image ⟨0, 5⟩ = Except.error PyErr.cv2Error ∧
    preprocess_image ⟨10, 20⟩ = Except.ok ⟨10, 20⟩ :=
  ⟨(c6_untyped_error_only ⟨0, 5⟩).2.1 (Or.inl rfl),
   ((c6_untyped_error_only ⟨10, 20⟩).2.2 (by decide) (by decide)).trans (by rfl)⟩

/-- Claim C7: when no field's pattern or extractor matches the merged
text, `extract_product_info` returns the record in which every field is
absent, and no error is thrown — individual extractor misses never abort
the call. -/
theorem c7_all_absent_no_error (t : String)
    (h1 : search_certificate t = none) (h2 : search_batch t = none)
    (h3 : search_expiry t = none) (h4 : search_pack t = none)
    (h5 : extract_brand_name t = none) (h6 : extract_generic_name t = none)
    (h7 : extract_dosage_form t = none) (h8 : extract_manufacturer_country t = none)
    (h9 : extract_strength t = none) (h10 : extract_description t = none)
    (h11 : extract_precaution t = none) :
    extract_product_info t = Except.ok emptyProduct := by
  rw [extract_product_info_eq]
  have hev : expiry_value t = none := by rw [expiry_value, h3]
  rw [hev, h1, h2, h5, h6, h7, h9]
  rfl

/-- Claim C7, witness: the empty merged text matches nothing and yields
the all-absent record. -/
theorem c7_all_absent_no_error_witness :
    extract_product_info "" = Except.ok emptyProduct :=
  c7_all_absent_no_error "" rfl rfl rfl rfl rfl rfl rfl rfl rfl rfl rfl

/-- Claim C8: a successful brand-name extraction is the leftmost run of
capitalized words (each an uppercase letter followed by at least one more
letter, separated by whitespace) immediately followed by a registered or
trademark glyph: the matcher fails at every earlier start position, the
capture starts with an uppercase letter, and the glyph directly follows
the capture.  In particular `extract_brand_name "Panadol® Extra"` is
`some "Panadol"`. -/
theorem c8_brand_name_first_glyph_run :
    (∀ t s, extract_brand_name t = some s →
      ∃ i, (∀ j < i, brandAt (t.toList.drop j) = none) ∧
        brandAt (t.toList.drop i) = some s.toList ∧
        ∃ g rest, t.toList.drop i = s.toList ++ g :: rest ∧ isGlyph g = true ∧
          2 ≤ s.length ∧ ∃ c cs, s.toList = c :: cs ∧ c.isUpper = true) ∧
    extract_brand_name "Panadol® Extra" = some "Panadol" := by
  refine ⟨?_, rfl⟩
  intro t s h
  rw [extract_brand_name] at h
  obtain ⟨cap, hsearch, hcap⟩ := Option.map_eq_some'.mp h
  obtain ⟨i, hi, hmin⟩ := searchAux_eq_some hsearch
  obtain ⟨g, rest, hdecomp, hglyph, hlen, c, cs, hcc, hupper⟩ := brandAt_spec hi
  have hlist : s.toList = cap := by rw [← hcap]; rfl
  refine ⟨i, hmin, by rw [hlist]; exact hi, g, rest, by rw [hlist]; exact hdecomp,
    hglyph, ?_, c, cs, by rw [hlist]; exact hcc, hupper⟩
  have hsl : s.length = cap.length := by rw [← hcap]; rfl
  omega

/-- Claim C8, witness: the leftmost-glyph-run characterization holds on
`"Panadol® Extra"` with capture `"Panadol"`. -/
theorem c8_brand_name_first_glyph_run_witness :
    ∃ i, (∀ j < i, brandAt (("Panadol® Extra").toList.drop j) = none) ∧
      brandAt (("Panadol® Extra").toList.drop i) = some ("Panadol").toList ∧
      ∃ g rest, ("Panadol® Extra").toList.drop i = ("Panadol").toList ++ g :: rest ∧
        isGlyph g = true ∧ 2 ≤ ("Panadol").length ∧
        ∃ c cs, ("Panadol").toList = c :: cs ∧ c.isUpper = true :=
  c8_brand_name_first_glyph_run.1 "Panadol® Extra" "Panadol" rfl

/-- Claim C9: extraction from the merged text onward is deterministic.
The merged text is exactly the surviving Engine A texts in detection order
joined by single spaces with Engine B's block appended after a single
space; the surviving texts are a sublist of the original detection-order
texts (no reordering by confidence); and both the merge and
`extract_product_info` are functions of their inputs, so byte-identical
inputs give byte-identical outputs. -/
theorem c9_merge_deterministic :
    (∀ (floor : ℚ) (frags : List Fragment) (tess : String),
      extract_text floor frags tess =
        String.intercalate " "
          ((frags.filter fun f => decide (floor < f.conf)).map Fragment.text)
          ++ " " ++ tess) ∧
    (∀ (floor : ℚ) (frags : List Fragment),
      (survivors floor frags).Sublist (frags.map Fragment.text)) ∧
    (∀ (floor : ℚ) (f₁ f₂ : List Fragment) (t₁ t₂ : String),
      f₁ = f₂ → t₁ = t₂ → extract_text floor f₁ t₁ = extract_text floor f₂ t₂) ∧
    (∀ t₁ t₂ : String, t₁ = t₂ → extract_product_info t₁ = extract_product_info t₂) := by
  refine ⟨fun _ _ _ => rfl, fun floor frags => ?_, ?_, ?_⟩
  · exact (List.filter_sublist frags).map Fragment.text
  · rintro floor f₁ f₂ t₁ t₂ rfl rfl; rfl
  · rintro t₁ t₂ rfl; rfl

/-- Claim C9, witness: determinism instantiated on concrete equal
inputs. -/
theorem c9_merge_deterministic_witness :
    extract_text MIN_CONFIDENCE [⟨"A", 1⟩] "x" = extract_text MIN_CONFIDENCE [⟨"A", 1⟩] "x" ∧
    extract_product_info "t" = extract_product_info "t" :=
  ⟨c9_merge_deterministic.2.2.1 MIN_CONFIDENCE [⟨"A", 1⟩] [⟨"A", 1⟩] "x" "x" rfl rfl,
   c9_merge_deterministic.2.2.2 "t" "t" rfl⟩

/-- Claim C10: whenever the dosage-form or manufacturer-country extractor
finds a match, the returned value is the canonical vocabulary entry
itself — a member of the fixed dosage-form list (lowercase) or of the
country list exactly as written there — never the substring as it appears
in the input text. -/
theorem c10_vocab_membership :
    (∀ t r, extract_dosage_form t = some r → r ∈ dosage_forms) ∧
    (∀ t r, extract_manufacturer_country t = some r → r ∈ countries) :=
  ⟨fun _ _ h => findForm_mem h, fun _ _ h => findCountry_mem h⟩

/-- Claim C10, witness: membership instantiated on texts matching
`"tablet"` and `"USA"`. -/
theorem c10_vocab_membership_witness :
    "tablet" ∈ dosage_forms ∧ "USA" ∈ countries :=
  ⟨c10_vocab_membership.1 "a tablet" "tablet" rfl,
   c10_vocab_membership.2 "MADE IN USA" "USA" rfl⟩
